import Mathlib

set_option maxRecDepth 8000

/-!
Shallow embedding of the update/throttle/render engine of `tqdm.c`
(repository `AkulDatta/tqdm.c`, file `src/tqdm.c`, header `include/tqdm/tqdm.h`).

Modelling conventions:
* `size_t` values are `Nat` together with explicit `% 2^64` arithmetic
  (`add64` / `sub64`) at the places where the C code can wrap; `unsigned`
  casts are explicit `% 2^32`.
* `double` / `float` quantities (timestamps, intervals, rates) are `ℚ`.
* The C clock `current_time_seconds()` is modelled as one time parameter `t`
  per public call (the several samples taken inside one call differ only by
  the call's own execution time).
* The probed terminal width (`ioctl`) is a parameter `w` of the calls that
  may render.
* Writing the formatted meter to the output stream is I/O; its observable
  effect in the state is the `last_print_time` / `last_print_count` /
  terminal-cache bookkeeping performed by `tqdm_print_progress`, plus the
  boolean "a render happened" that the operations return.
* Heap pointers (`current`, `end`) are byte addresses (`Nat`), `NULL` being
  `Option.none` for `end`; the external function-pointer iterator of
  `tqdm_create_iterator` is modelled as a list of pending items.
* `char *` display strings (desc, unit, postfix text, colour) play no role
  in any claim below and are omitted from the embedded state; the numeric
  and boolean configuration fields are all present.
-/

namespace TqdmC

/-- 2^64, the modulus of `size_t` arithmetic. -/
def W64 : Nat := 2 ^ 64

/-- 2^32, the modulus of `unsigned` arithmetic. -/
def W32 : Nat := 2 ^ 32

/-- `size_t` addition (used for `tqdm->n += n`, `tqdm->count++`). -/
def add64 (a b : Nat) : Nat := (a + b) % W64

/-- `size_t` subtraction (used for `tqdm->n - tqdm->last_print_count`);
faithful for operands below `2^64`. -/
def sub64 (a b : Nat) : Nat := (a + W64 - b) % W64

/-- `struct tqdm_params_s` (tqdm.h lines 100-121), numeric/boolean fields. -/
structure TqdmParams where
  total : Nat
  leave : Bool
  ncols : Int
  mininterval : ℚ
  miniters : Nat
  ascii : Bool
  disable : Bool
  unit_scale : Bool
  dynamic_ncols : Bool
  smoothing : ℚ
  initial : Nat
  position : Int
  unit_divisor : ℚ
  delay : ℚ
  deriving DecidableEq

/-- `struct tqdm_s` (tqdm.h lines 124-159).  The pthread lock and the fixed
`display_buffer` scratch array are I/O artefacts and not part of the
embedded state; the external iterator is a list of pending item tokens. -/
structure Tqdm where
  current : Nat
  endp : Option Nat
  element_size : Nat
  n : Nat
  count : Nat
  params : TqdmParams
  start_time : ℚ
  last_print_time : ℚ
  last_print_count : Nat
  closed : Bool
  paused : Bool
  pause_start : ℚ
  total_pause_time : ℚ
  rate_history : List ℚ
  rate_history_size : Nat
  rate_history_idx : Nat
  cached_rate : ℚ
  last_rate_calc_time : ℚ
  last_rate_calc_n : Nat
  cached_terminal_width : Nat
  last_terminal_check : ℚ
  iterator_mode : Bool
  iter_items : List Nat
  deriving DecidableEq

/-- `tqdm_update_dynamic_miniters` (tqdm.c lines 187-197): when auto mode
(`miniters == 0`), positive time since the last render that is still below
`mininterval`, and the count has grown since the last render, set
`miniters = (unsigned)(count_diff * 2)`. -/
def tqdm_update_dynamic_miniters (st : Tqdm) (t : ℚ) : Tqdm :=
  let time_diff := t - st.last_print_time
  if 0 < time_diff ∧ st.params.miniters = 0 then
    let count_diff := sub64 st.n st.last_print_count
    if 0 < count_diff ∧ time_diff < st.params.mininterval then
      { st with params := { st.params with miniters := count_diff * 2 % W64 % W32 } }
    else st
  else st

/-- `tqdm_print_progress` (tqdm.c lines 1103-1138): early-out when disabled
or closed; otherwise refresh the cached terminal width when needed and
record `last_print_time = t`, `last_print_count = n`.  The actual meter
formatting and `fprintf` are I/O and modelled by the operations' returned
render flag. -/
def tqdm_print_progress (st : Tqdm) (t : ℚ) (w : Nat) : Tqdm :=
  if st.params.disable = true ∨ st.closed = true then st
  else
    let st' :=
      if st.params.ncols ≤ 0 ∨ st.params.dynamic_ncols = true then
        if t - st.last_terminal_check < 1 then st
        else { st with cached_terminal_width := w, last_terminal_check := t }
      else st
    { st' with last_print_time := t, last_print_count := st'.n }

/-- The shared throttle gate of `tqdm_update_n` (tqdm.c lines 821-831),
`tqdm_update_to` (lines 854-863) and `tqdm_next` (lines 780-790):
`countDiff` is `n - last_print_count` for the first and third, the clamped
`delta` for the second. -/
def tqdm_gate (st : Tqdm) (countDiff : Nat) (t : ℚ) : Bool :=
  let is_complete := 0 < st.params.total ∧ st.params.total ≤ st.n
  if is_complete ∨ st.params.miniters = 0 ∨ st.params.miniters ≤ countDiff then
    if is_complete ∨ st.params.mininterval ≤ t - st.last_print_time then true
    else false
  else false

/-- `tqdm_update_n` (tqdm.c lines 808-838): no-op when closed or disabled;
otherwise `n += delta` (size_t), dynamic-miniters adaptation, gate
evaluation, and a render when the gate passes.  Returns the new state and
whether a render happened. -/
def tqdm_update_n (st : Tqdm) (delta : Nat) (t : ℚ) (w : Nat) : Tqdm × Bool :=
  if st.closed = true ∨ st.params.disable = true then (st, false)
  else
    let st1 := { st with n := add64 st.n delta }
    let st2 := tqdm_update_dynamic_miniters st1 t
    let should_print := tqdm_gate st2 (sub64 st2.n st2.last_print_count) t
    if should_print then (tqdm_print_progress st2 t w, true) else (st2, false)

/-- `tqdm_update` (tqdm.c lines 802-806): advance by 1. -/
def tqdm_update (st : Tqdm) (t : ℚ) (w : Nat) : Tqdm × Bool :=
  tqdm_update_n st 1 t w

/-- The `delta` computed by `tqdm_update_to` (tqdm.c line 846):
`delta = (n > tqdm->n) ? n - tqdm->n : 0`. -/
def tqdm_update_to_delta (st : Tqdm) (v : Nat) : Nat :=
  if st.n < v then v - st.n else 0

/-- `tqdm_update_to` (tqdm.c lines 840-872): no-op (returning `false`) when
closed or disabled; otherwise compute the clamped `delta`, set `n = v`
absolutely, adapt miniters, and gate on `delta`.  Returns the new state and
whether a render happened. -/
def tqdm_update_to (st : Tqdm) (v : Nat) (t : ℚ) (w : Nat) : Tqdm × Bool :=
  if st.closed = true ∨ st.params.disable = true then (st, false)
  else
    let delta := tqdm_update_to_delta st v
    let st1 := { st with n := v }
    let st2 := tqdm_update_dynamic_miniters st1 t
    let should_print := tqdm_gate st2 delta t
    if should_print then (tqdm_print_progress st2 t w, true) else (st2, false)

/-- `tqdm_reset` (tqdm.c lines 923-942): reinitialize `n`, `count`, the
timing bookkeeping and the rate history; replace `total` only when the
argument is positive.  Note: no closed-flag check, and `pause_start` is not
touched. -/
def tqdm_reset (st : Tqdm) (total : Nat) (t : ℚ) : Tqdm :=
  { st with
    n := st.params.initial
    count := 0
    start_time := t
    last_print_time := t
    last_print_count := st.params.initial
    total_pause_time := 0
    paused := false
    params := if 0 < total then { st.params with total := total } else st.params
    rate_history := List.replicate st.rate_history_size 0
    rate_history_idx := 0 }

/-- `tqdm_has_next` (tqdm.c lines 738-755). -/
def tqdm_has_next (st : Tqdm) : Bool :=
  if st.closed = true then false
  else if st.iterator_mode = true then !st.iter_items.isEmpty
  else
    match st.endp with
    | some e => decide (st.current < e)
    | none =>
      if 0 < st.params.total then decide (st.n < st.params.total)
      else true

/-- `tqdm_next` (tqdm.c lines 757-799): `NULL` (here `none`) and no state
change when `tqdm_has_next` fails; otherwise produce the next item, advance
`count` and `n` by one, adapt miniters, and render when the gate passes and
the instance is not disabled. -/
def tqdm_next (st : Tqdm) (t : ℚ) (w : Nat) : Option Nat × Tqdm :=
  if tqdm_has_next st = false then (none, st)
  else
    let step : Option Nat × Tqdm :=
      if st.iterator_mode = true then
        (st.iter_items.head?, { st with iter_items := st.iter_items.tail })
      else
        (some st.current, { st with current := st.current + st.element_size })
    let result := step.1
    let st1 := { step.2 with count := add64 step.2.count 1, n := add64 step.2.n 1 }
    let st2 := tqdm_update_dynamic_miniters st1 t
    let should_print := tqdm_gate st2 (sub64 st2.n st2.last_print_count) t
    if should_print = true ∧ st2.params.disable = false then
      (result, tqdm_print_progress st2 t w)
    else (result, st2)

/-- Zero-padded decimal of width at least 2, the `%02d` of `snprintf`. -/
def padZero2 (k : Nat) : String := if k < 10 then "0" ++ toString k else toString k

/-- `tqdm_format_interval` (tqdm.c lines 262-290): clock text `MM:SS` under
one hour, `HH:MM:SS` otherwise, `"?"` for negative or more-than-a-year
inputs.  `(int)t` is truncation, which is `Rat.floor` for the non-negative
values reaching it. -/
def tqdm_format_interval (t : ℚ) : String :=
  if t < 0 ∨ 86400 * 365 < t then "?"
  else
    let total_seconds := (Rat.floor t).toNat
    let hours := min (total_seconds / 3600) 99999
    let minutes := min (total_seconds % 3600 / 60) 59
    let seconds := min (total_seconds % 60) 59
    if 0 < hours then
      padZero2 hours ++ ":" ++ padZero2 minutes ++ ":" ++ padZero2 seconds
    else
      padZero2 minutes ++ ":" ++ padZero2 seconds

/-- Round to nearest integer, half away from zero.  `snprintf` rounds the
binary double; on the exact decimal values the claims exercise no tie or
double-rounding arises, so the two agree there. -/
def ratRound (q : ℚ) : ℤ :=
  if 0 ≤ q then Rat.floor (q + 1 / 2) else -Rat.floor (-q + 1 / 2)

/-- Left-pad the decimal digits of `v` with zeros to width `k`. -/
def padDigits (v k : Nat) : String :=
  let s := toString v
  String.mk (List.replicate (k - s.length) '0') ++ s

/-- Fixed-point decimal text with `k` fractional digits, the `%.kf` of
`snprintf` (see `ratRound` for the rounding caveat). -/
def ratFixed (q : ℚ) (k : Nat) : String :=
  let m : ℤ := ratRound (q * (10 : ℚ) ^ k)
  let sign := if m < 0 then "-" else ""
  let a := m.natAbs
  if k = 0 then sign ++ toString a
  else sign ++ toString (a / 10 ^ k) ++ "." ++ padDigits (a % 10 ^ k) k

/-- The prefix table of `tqdm_format_sizeof` (tqdm.c lines 229-230); the
same table serves both unit divisors. -/
def tqdm_sizeof_pfx : List String := ["", "k", "M", "G", "T", "P", "E", "Z", "Y"]

/-- The scaling loop of `tqdm_format_sizeof` (tqdm.c lines 233-243),
structurally recursive on the number of table slots left: divide by the
divisor while the magnitude is at least the divisor and the table index is
below 8. -/
def tqdm_sizeof_go (divisor : ℚ) : ℚ → Nat → Nat → ℚ × Nat
  | num, idx, 0 => (num, idx)
  | num, idx, fuel + 1 =>
    if idx < 8 then
      if divisor ≤ num then tqdm_sizeof_go divisor (num / divisor) (idx + 1) fuel
      else (num, idx)
    else (num, idx)

/-- The scaling loop entered at table index `idx` (the C enters at 0);
`8 - idx` slots remain, so the fuel is exact. -/
def tqdm_sizeof_scale (num divisor : ℚ) (idx : Nat) : ℚ × Nat :=
  tqdm_sizeof_go divisor num idx (8 - idx)

/-- `tqdm_format_sizeof` (tqdm.c lines 228-260): scale by the divisor
(1024 gets its own literal loop in the C, with identical behaviour), then
print integral values below 10^6 without decimals, otherwise with 0/1/2
decimal places by magnitude, followed by the table prefix and the unit
suffix. -/
def tqdm_format_sizeof (num : ℚ) (suffix : String) (divisor : ℚ) : String :=
  let scaled :=
    if divisor = 1024 then tqdm_sizeof_scale num 1024 0
    else tqdm_sizeof_scale num divisor 0
  let x := scaled.1
  let pfx_idx := scaled.2
  let pfx := tqdm_sizeof_pfx.getD pfx_idx ""
  let body :=
    if x.den = 1 ∧ x < 1000000 then toString x.num
    else if 100 ≤ x ∨ pfx_idx = 0 then ratFixed x 0
    else if 10 ≤ x then ratFixed x 1
    else ratFixed x 2
  body ++ pfx ++ suffix

/-- Remaining-time estimate of `tqdm_format_meter` (tqdm.c lines 356-363):
the division `(total - n) / rate` is performed only when
`total > 0 ∧ n > 0 ∧ rate > 0 ∧ n < total`. -/
def tqdm_meter_remaining (n total : Nat) (rate : ℚ) : Option ℚ :=
  if 0 < total ∧ 0 < n ∧ 0 < rate ∧ n < total then
    some (((total : ℚ) - (n : ℚ)) / rate)
  else none

/-- The rendered remaining field (tqdm.c lines 356-363): clock text of the
estimate when defined, the explicit `"?"` marker otherwise. -/
def tqdm_meter_remaining_str (n total : Nat) (rate : ℚ) : String :=
  match tqdm_meter_remaining n total rate with
  | some r => tqdm_format_interval r
  | none => "?"

/-- ASCII bar of `tqdm_format_meter` (tqdm.c lines 412-419), as the list of
bar characters.  The C computes `filled` as
`(int)((double)bar_width * n / total)`; for products below 2^53 the
binary64 computation is exact and equals this rational floor. -/
def tqdm_ascii_bar (W n total : Nat) : List Char :=
  let filled := min (if 0 < total then W * n / total else 0) W
  List.replicate filled '#' ++ List.replicate (W - filled) ' '

/-- Unicode-glyph bar of `tqdm_format_meter` (tqdm.c lines 420-456), as the
list of glyph indices into `tqdm_unicode_blocks` (0 = empty cell, 8 = full
block, 1..7 the partial blocks).  `n * 8 * bar_width` is `size_t`
arithmetic and wraps at 2^64; the subsequent `(int)` cast of the quotient
is the identity at every instance the theorems below evaluate. -/
def tqdm_glyph_bar (W n total : Nat) : List Nat :=
  if 0 < total ∧ 0 < n then
    let progress_fixed := n * 8 % W64 * W % W64 / total
    let clamped :=
      if W < progress_fixed / 8 then (W, 0)
      else (progress_fixed / 8, progress_fixed % 8)
    let ff := clamped.1
    let pc := clamped.2
    let full := List.replicate (min ff W) 8
    if ff < W ∧ 0 < pc then
      full ++ [pc] ++ List.replicate (W - (ff + 1)) 0
    else
      full ++ List.replicate (W - ff) 0
  else
    List.replicate W 0

/-- `needle` occurs as a contiguous substring of `hay`. -/
def textContains (needle hay : String) : Prop := ∃ s t, s ++ needle ++ t = hay

/-! ### Basic arithmetic and field-preservation lemmas -/

theorem add64_eq_of_lt {a b : Nat} (h : a + b < W64) : add64 a b = a + b :=
  Nat.mod_eq_of_lt h

theorem sub64_eq_of_le {a b : Nat} (hba : b ≤ a) (ha : a < W64) :
    sub64 a b = a - b := by
  unfold sub64
  have h1 : a + W64 - b = a - b + W64 := by omega
  rw [h1, Nat.add_mod_right]
  exact Nat.mod_eq_of_lt (by omega)

theorem dyn_only_miniters (st : Tqdm) (t : ℚ) :
    ∃ m, tqdm_update_dynamic_miniters st t =
      { st with params := { st.params with miniters := m } } := by
  unfold tqdm_update_dynamic_miniters
  dsimp only
  split_ifs
  · exact ⟨_, rfl⟩
  · exact ⟨st.params.miniters, rfl⟩
  · exact ⟨st.params.miniters, rfl⟩

theorem dyn_n (st : Tqdm) (t : ℚ) :
    (tqdm_update_dynamic_miniters st t).n = st.n := by
  obtain ⟨m, h⟩ := dyn_only_miniters st t
  rw [h]

theorem dyn_last_print_count (st : Tqdm) (t : ℚ) :
    (tqdm_update_dynamic_miniters st t).last_print_count = st.last_print_count := by
  obtain ⟨m, h⟩ := dyn_only_miniters st t
  rw [h]

theorem dyn_last_print_time (st : Tqdm) (t : ℚ) :
    (tqdm_update_dynamic_miniters st t).last_print_time = st.last_print_time := by
  obtain ⟨m, h⟩ := dyn_only_miniters st t
  rw [h]

theorem dyn_closed (st : Tqdm) (t : ℚ) :
    (tqdm_update_dynamic_miniters st t).closed = st.closed := by
  obtain ⟨m, h⟩ := dyn_only_miniters st t
  rw [h]

theorem dyn_total (st : Tqdm) (t : ℚ) :
    (tqdm_update_dynamic_miniters st t).params.total = st.params.total := by
  obtain ⟨m, h⟩ := dyn_only_miniters st t
  rw [h]

theorem dyn_mininterval (st : Tqdm) (t : ℚ) :
    (tqdm_update_dynamic_miniters st t).params.mininterval = st.params.mininterval := by
  obtain ⟨m, h⟩ := dyn_only_miniters st t
  rw [h]

theorem dyn_disable (st : Tqdm) (t : ℚ) :
    (tqdm_update_dynamic_miniters st t).params.disable = st.params.disable := by
  obtain ⟨m, h⟩ := dyn_only_miniters st t
  rw [h]

theorem dyn_miniters_eq (st : Tqdm) (t : ℚ) :
    (tqdm_update_dynamic_miniters st t).params.miniters =
      if 0 < t - st.last_print_time ∧ st.params.miniters = 0 ∧
         0 < sub64 st.n st.last_print_count ∧
         t - st.last_print_time < st.params.mininterval then
        sub64 st.n st.last_print_count * 2 % W64 % W32
      else st.params.miniters := by
  unfold tqdm_update_dynamic_miniters
  dsimp only
  split_ifs <;> first | rfl | tauto

theorem print_progress_spec (st : Tqdm) (t : ℚ) (w : Nat)
    (hd : st.params.disable = false) (hc : st.closed = false) :
    (tqdm_print_progress st t w).last_print_time = t ∧
    (tqdm_print_progress st t w).last_print_count = st.n ∧
    (tqdm_print_progress st t w).n = st.n ∧
    (tqdm_print_progress st t w).params = st.params := by
  unfold tqdm_print_progress
  rw [if_neg (by simp [hd, hc])]
  refine ⟨rfl, ?_, ?_, ?_⟩ <;> (split <;> first | rfl | (split <;> rfl))

theorem tqdm_gate_iff (st : Tqdm) (cd : Nat) (t : ℚ) :
    tqdm_gate st cd t = true ↔
      (((0 < st.params.total ∧ st.params.total ≤ st.n) ∨
          st.params.miniters = 0 ∨ st.params.miniters ≤ cd) ∧
       ((0 < st.params.total ∧ st.params.total ≤ st.n) ∨
          st.params.mininterval ≤ t - st.last_print_time)) := by
  unfold tqdm_gate
  dsimp only
  split_ifs with h1 h2
  · simpa using ⟨h1, h2⟩
  · simp only [Bool.false_eq_true, false_iff]
    exact fun hR => h2 hR.2
  · simp only [Bool.false_eq_true, false_iff]
    exact fun hR => h1 hR.1

/-! ### C1: advance renders iff both gates pass -/

/-- C1.  For every open, enabled instance, `advance(delta)`
(`tqdm_update_n`) renders if and only if both gates pass: the count gate
passes when the instance is complete (`total > 0` and `n ≥ total` for the
post-increment count), or the minimum-count threshold (after the
dynamic-miniters adaptation, recorded in `st2`) is 0, or
`n - last_render_count ≥ threshold`; the time gate passes when the
instance is complete or `t - last_render_time ≥ mininterval`; and on a
render both `last_print_time` and `last_print_count` are updated to the
current time and count. -/
theorem tqdm_advance_render_iff_gates
    (st st2 : Tqdm) (delta : Nat) (t : ℚ) (w : Nat)
    (hopen : st.closed = false) (hen : st.params.disable = false)
    (hbound : st.n + delta < W64) (hlr : st.last_print_count ≤ st.n + delta)
    (hst2 : st2 = tqdm_update_dynamic_miniters { st with n := add64 st.n delta } t) :
    ((tqdm_update_n st delta t w).2 = true ↔
      (((0 < st.params.total ∧ st.params.total ≤ st.n + delta) ∨
          st2.params.miniters = 0 ∨
          st2.params.miniters ≤ st.n + delta - st.last_print_count) ∧
       ((0 < st.params.total ∧ st.params.total ≤ st.n + delta) ∨
          st.params.mininterval ≤ t - st.last_print_time))) ∧
    ((tqdm_update_n st delta t w).2 = true →
      (tqdm_update_n st delta t w).1.last_print_time = t ∧
      (tqdm_update_n st delta t w).1.last_print_count = st.n + delta) := by
  have hn2 : st2.n = st.n + delta := by
    rw [hst2, dyn_n]
    exact add64_eq_of_lt hbound
  have hlpc2 : st2.last_print_count = st.last_print_count := by
    rw [hst2, dyn_last_print_count]
  have hlpt2 : st2.last_print_time = st.last_print_time := by
    rw [hst2, dyn_last_print_time]
  have hcl2 : st2.closed = false := by rw [hst2, dyn_closed]; exact hopen
  have hdis2 : st2.params.disable = false := by rw [hst2, dyn_disable]; exact hen
  have htot2 : st2.params.total = st.params.total := by rw [hst2, dyn_total]
  have hmin2 : st2.params.mininterval = st.params.mininterval := by
    rw [hst2, dyn_mininterval]
  have hupdate : tqdm_update_n st delta t w =
      (if tqdm_gate st2 (sub64 st2.n st2.last_print_count) t then
        (tqdm_print_progress st2 t w, true)
       else (st2, false)) := by
    unfold tqdm_update_n
    rw [if_neg (by simp [hopen, hen])]
    dsimp only
    rw [← hst2]
  have hsub : sub64 st2.n st2.last_print_count = st.n + delta - st.last_print_count := by
    rw [hn2, hlpc2]
    exact sub64_eq_of_le hlr hbound
  have hgate : (tqdm_gate st2 (sub64 st2.n st2.last_print_count) t = true) ↔
      (((0 < st.params.total ∧ st.params.total ≤ st.n + delta) ∨
          st2.params.miniters = 0 ∨
          st2.params.miniters ≤ st.n + delta - st.last_print_count) ∧
       ((0 < st.params.total ∧ st.params.total ≤ st.n + delta) ∨
          st.params.mininterval ≤ t - st.last_print_time)) := by
    rw [tqdm_gate_iff, hsub, hn2, hlpt2, htot2, hmin2]
  constructor
  · rw [hupdate]
    split
    · next h => simpa using hgate.mp h
    · next h => simpa using fun hf => h (hgate.mpr hf)
  · rw [hupdate]
    split
    · next h =>
      intro _
      obtain ⟨h1, h2, h3, _⟩ := print_progress_spec st2 t w hdis2 hcl2
      exact ⟨h1, by rw [h2, hn2]⟩
    · next h => intro hf; simp at hf

/-- A concrete open, enabled instance used by the concrete instantiations:
`n = 3`, `total = 10`, `mininterval = 0.1`, `miniters = 0` (auto),
`initial = 0`, last render at time 0 with count 3. -/
def testState : Tqdm where
  current := 0
  endp := none
  element_size := 0
  n := 3
  count := 3
  params :=
    { total := 10, leave := true, ncols := -1, mininterval := 1 / 10,
      miniters := 0, ascii := false, disable := false, unit_scale := false,
      dynamic_ncols := false, smoothing := 3 / 10, initial := 0,
      position := -1, unit_divisor := 1000, delay := 0 }
  start_time := 0
  last_print_time := 0
  last_print_count := 3
  closed := false
  paused := false
  pause_start := 0
  total_pause_time := 0
  rate_history := List.replicate 10 0
  rate_history_size := 10
  rate_history_idx := 0
  cached_rate := 0
  last_rate_calc_time := 0
  last_rate_calc_n := 0
  cached_terminal_width := 80
  last_terminal_check := 0
  iterator_mode := false
  iter_items := []

/-- C1 witness: on `testState`, `advance(1)` at time 1 renders (threshold
auto, interval elapsed) and records the render time and count. -/
theorem tqdm_advance_render_iff_gates_witness :
    (tqdm_update_n testState 1 1 80).2 = true ∧
    (tqdm_update_n testState 1 1 80).1.last_print_time = 1 ∧
    (tqdm_update_n testState 1 1 80).1.last_print_count = 4 := by
  have h := tqdm_advance_render_iff_gates testState
    (tqdm_update_dynamic_miniters { testState with n := add64 testState.n 1 } 1)
    1 1 80 rfl rfl (by decide) (by decide) rfl
  have hr : (tqdm_update_n testState 1 1 80).2 = true :=
    h.1.mpr ⟨Or.inr (Or.inl (by with_unfolding_all rfl)),
             Or.inr (by norm_num [testState])⟩
  have h2 := h.2 hr
  exact ⟨hr, h2.1, h2.2.trans (by decide)⟩

/-! ### C2: adaptive threshold on every advance -/

/-- C2.  On every advance by an open, enabled instance, before the gate
evaluation and against the pre-update last-render snapshot: if the
configured threshold is 0 (auto mode), the time since the last render is
positive but below `mininterval`, and the count has grown since the last
render, the threshold becomes `2 × (n − last_render_count)` (with the
post-increment `n`); otherwise it is unchanged. -/
theorem tqdm_advance_adaptive_threshold
    (st : Tqdm) (delta : Nat) (t : ℚ) (w : Nat)
    (hopen : st.closed = false) (hen : st.params.disable = false)
    (hbound : st.n + delta < W64) (hlr : st.last_print_count ≤ st.n + delta)
    (hsmall : (st.n + delta - st.last_print_count) * 2 < W32) :
    ((st.params.miniters = 0 ∧ 0 < t - st.last_print_time ∧
        t - st.last_print_time < st.params.mininterval ∧
        st.last_print_count < st.n + delta) →
      (tqdm_update_n st delta t w).1.params.miniters =
        2 * (st.n + delta - st.last_print_count)) ∧
    (¬(st.params.miniters = 0 ∧ 0 < t - st.last_print_time ∧
        t - st.last_print_time < st.params.mininterval ∧
        st.last_print_count < st.n + delta) →
      (tqdm_update_n st delta t w).1.params.miniters = st.params.miniters) := by
  have hmin : (tqdm_update_n st delta t w).1.params.miniters =
      (tqdm_update_dynamic_miniters { st with n := add64 st.n delta } t).params.miniters := by
    unfold tqdm_update_n
    rw [if_neg (by simp [hopen, hen])]
    dsimp only
    split
    · obtain ⟨-, -, -, hp⟩ := print_progress_spec
        (tqdm_update_dynamic_miniters { st with n := add64 st.n delta } t) t w
        (by rw [dyn_disable]; exact hen) (by rw [dyn_closed]; exact hopen)
      exact congrArg TqdmParams.miniters hp
    · rfl
  rw [hmin, dyn_miniters_eq]
  dsimp only
  rw [add64_eq_of_lt hbound, sub64_eq_of_le hlr hbound]
  constructor
  · intro hc
    rw [if_pos ⟨hc.2.1, hc.1, by omega, hc.2.2.1⟩]
    have hx : (st.n + delta - st.last_print_count) * 2 < W64 :=
      lt_of_lt_of_le hsmall (by norm_num [W32, W64])
    rw [Nat.mod_eq_of_lt hx, Nat.mod_eq_of_lt hsmall, Nat.mul_comm]
  · intro hc
    rw [if_neg]
    intro hcontra
    obtain ⟨h1, h2, h3, h4⟩ := hcontra
    exact hc ⟨h2, h1, h4, by omega⟩

/-- C2 witness: on `testState`, `advance(2)` at time 1/20 (inside the
minimum interval, count grown by 2) sets the auto threshold to 4. -/
theorem tqdm_advance_adaptive_threshold_witness :
    (tqdm_update_n testState 2 (1 / 20) 80).1.params.miniters = 4 := by
  have h := tqdm_advance_adaptive_threshold testState 2 (1 / 20) 80
    rfl rfl (by decide) (by decide) (by decide)
  exact (h.1 ⟨rfl, by norm_num [testState], by norm_num [testState],
    by decide⟩).trans (by decide)

/-! ### Further preservation lemmas -/

theorem print_progress_closed (st : Tqdm) (t : ℚ) (w : Nat) :
    (tqdm_print_progress st t w).closed = st.closed := by
  unfold tqdm_print_progress
  dsimp only
  split_ifs <;> rfl

theorem print_progress_params (st : Tqdm) (t : ℚ) (w : Nat) :
    (tqdm_print_progress st t w).params = st.params := by
  unfold tqdm_print_progress
  dsimp only
  split_ifs <;> rfl

theorem print_progress_n (st : Tqdm) (t : ℚ) (w : Nat) :
    (tqdm_print_progress st t w).n = st.n := by
  unfold tqdm_print_progress
  dsimp only
  split_ifs <;> rfl

theorem update_to_n_eq (st : Tqdm) (v : Nat) (t : ℚ) (w : Nat)
    (hopen : st.closed = false) (hen : st.params.disable = false) :
    (tqdm_update_to st v t w).1.n = v := by
  unfold tqdm_update_to
  rw [if_neg (by simp [hopen, hen])]
  dsimp only
  split
  · rw [print_progress_n, dyn_n]
  · rw [dyn_n]

theorem update_to_closed_eq (st : Tqdm) (v : Nat) (t : ℚ) (w : Nat) :
    (tqdm_update_to st v t w).1.closed = st.closed := by
  unfold tqdm_update_to
  split
  · rfl
  · dsimp only
    split
    · rw [print_progress_closed, dyn_closed]
    · rw [dyn_closed]

theorem update_to_disable_eq (st : Tqdm) (v : Nat) (t : ℚ) (w : Nat) :
    (tqdm_update_to st v t w).1.params.disable = st.params.disable := by
  unfold tqdm_update_to
  split
  · rfl
  · dsimp only
    split
    · rw [print_progress_params, dyn_disable]
    · rw [dyn_disable]

theorem update_to_total_eq (st : Tqdm) (v : Nat) (t : ℚ) (w : Nat) :
    (tqdm_update_to st v t w).1.params.total = st.params.total := by
  unfold tqdm_update_to
  split
  · rfl
  · dsimp only
    split
    · rw [print_progress_params, dyn_total]
    · rw [dyn_total]

theorem update_n_total_eq (st : Tqdm) (delta : Nat) (t : ℚ) (w : Nat) :
    (tqdm_update_n st delta t w).1.params.total = st.params.total := by
  unfold tqdm_update_n
  split
  · rfl
  · dsimp only
    split
    · rw [print_progress_params, dyn_total]
    · rw [dyn_total]

/-! ### C3: mutating operations on a closed instance -/

/-- The `testState` instance after `close`: same counters, `closed` set. -/
def closedState : Tqdm := { testState with closed := true }

/-- C3 counterexample: `tqdm_reset` has no closed-instance check (tqdm.c
lines 923-942), so reset on the closed instance with `n = 3` and
`initial = 0` changes `n` — it is not a no-op, contradicting the claim
that every count-mutating operation on a closed instance is one. -/
theorem tqdm_closed_reset_not_noop :
    closedState.closed = true ∧ (tqdm_reset closedState 5 2).n ≠ closedState.n := by
  decide

/-- C3 amended: on a closed instance, `advance` (`tqdm_update_n`) and
`set-to` (`tqdm_update_to`) are silent no-ops that preserve the entire
state and report no render/error; `reset`, however, reinitializes the
instance regardless of the closed flag (its `n` becomes the configured
initial value). -/
theorem tqdm_closed_mutators
    (st : Tqdm) (delta v T : Nat) (t : ℚ) (w : Nat) (h : st.closed = true) :
    tqdm_update_n st delta t w = (st, false) ∧
    tqdm_update_to st v t w = (st, false) ∧
    (tqdm_reset st T t).n = st.params.initial := by
  refine ⟨?_, ?_, rfl⟩
  · unfold tqdm_update_n
    rw [if_pos (Or.inl h)]
  · unfold tqdm_update_to
    rw [if_pos (Or.inl h)]

/-- C3 witness: the closed instance ignores `advance(7)` and `set-to(9)`
but `reset(5)` still rewrites `n`. -/
theorem tqdm_closed_mutators_witness :
    tqdm_update_n closedState 7 3 80 = (closedState, false) ∧
    tqdm_update_to closedState 9 3 80 = (closedState, false) ∧
    (tqdm_reset closedState 5 3).n = closedState.params.initial :=
  tqdm_closed_mutators closedState 7 9 5 3 80 rfl

/-! ### C4: disabled instances mutate nothing and never render -/

/-- A fresh instance created with the disabled flag set and `initial = 0`. -/
def disabledFresh : Tqdm :=
  { testState with
    n := 0
    count := 0
    last_print_count := 0
    params := { testState.params with disable := true } }

/-- C4.  On an instance with the disabled flag set, `advance(delta)`
(`tqdm_update_n`) and `set-to(v)` (`tqdm_update_to`) leave the whole state
— in particular the counter `n` — unchanged and never render. -/
theorem tqdm_disabled_no_mutation_no_render
    (st : Tqdm) (delta v : Nat) (t : ℚ) (w : Nat)
    (h : st.params.disable = true) :
    tqdm_update_n st delta t w = (st, false) ∧
    tqdm_update_to st v t w = (st, false) := by
  constructor
  · unfold tqdm_update_n
    rw [if_pos (Or.inr h)]
  · unfold tqdm_update_to
    rw [if_pos (Or.inr h)]

/-- C4 witness: `advance(50)` on a fresh disabled instance leaves `n = 0`
and produces no render. -/
theorem tqdm_disabled_no_mutation_no_render_witness :
    (tqdm_update_n disabledFresh 50 1 80).1.n = 0 ∧
    (tqdm_update_n disabledFresh 50 1 80).2 = false := by
  have h := tqdm_disabled_no_mutation_no_render disabledFresh 50 0 1 80 rfl
  rw [h.1]
  exact ⟨rfl, rfl⟩

/-! ### C5: set-to is absolute, its delta is clamped, and it is idempotent -/

/-- C5.  For an open, enabled instance, `set-to(v)` computes the throttle
delta as `max(0, v − n)` and sets `n = v` absolutely; an immediate second
`set-to(v)` therefore computes delta 0 and leaves the counter at `v`. -/
theorem tqdm_update_to_absolute_idempotent
    (st : Tqdm) (v : Nat) (t t2 : ℚ) (w w2 : Nat)
    (hopen : st.closed = false) (hen : st.params.disable = false) :
    (tqdm_update_to_delta st v : ℤ) = max 0 ((v : ℤ) - (st.n : ℤ)) ∧
    (tqdm_update_to st v t w).1.n = v ∧
    tqdm_update_to_delta (tqdm_update_to st v t w).1 v = 0 ∧
    (tqdm_update_to (tqdm_update_to st v t w).1 v t2 w2).1.n = v := by
  refine ⟨?_, update_to_n_eq st v t w hopen hen, ?_, ?_⟩
  · unfold tqdm_update_to_delta
    split_ifs with h
    · rw [max_eq_right (by omega : (0 : ℤ) ≤ (v : ℤ) - (st.n : ℤ))]
      omega
    · rw [max_eq_left (by omega : (v : ℤ) - (st.n : ℤ) ≤ 0)]
      simp
  · unfold tqdm_update_to_delta
    rw [update_to_n_eq st v t w hopen hen, if_neg (lt_irrefl v)]
  · exact update_to_n_eq _ v t2 w2
      ((update_to_closed_eq st v t w).trans hopen)
      ((update_to_disable_eq st v t w).trans hen)

/-- C5 witness: `set-to(5)` on `testState` (where `n = 3`) computes delta
2, sets `n = 5`, and the immediate repeat computes delta 0 and keeps 5. -/
theorem tqdm_update_to_absolute_idempotent_witness :
    (tqdm_update_to_delta testState 5 : ℤ) = max 0 ((5 : ℤ) - (testState.n : ℤ)) ∧
    (tqdm_update_to testState 5 1 80).1.n = 5 ∧
    tqdm_update_to_delta (tqdm_update_to testState 5 1 80).1 5 = 0 ∧
    (tqdm_update_to (tqdm_update_to testState 5 1 80).1 5 2 80).1.n = 5 :=
  tqdm_update_to_absolute_idempotent testState 5 1 2 80 80 rfl rfl

/-! ### C6: reset restores the initial counter and clears bookkeeping -/

/-- C6.  `reset(T)` restores `n` to the configured initial value, clears
the paused flag, the accumulated paused duration and the rate history, and
replaces `total` by `T` exactly when `T > 0` (`reset(0)` keeps the old
total); and the engine's advance/set-to paths never change `total`. -/
theorem tqdm_reset_spec
    (st : Tqdm) (T delta v : Nat) (t t2 : ℚ) (w : Nat) :
    (tqdm_reset st T t).n = st.params.initial ∧
    (tqdm_reset st T t).paused = false ∧
    (tqdm_reset st T t).total_pause_time = 0 ∧
    (tqdm_reset st T t).rate_history = List.replicate st.rate_history_size 0 ∧
    (tqdm_reset st T t).rate_history_idx = 0 ∧
    (0 < T → (tqdm_reset st T t).params.total = T) ∧
    (T = 0 → (tqdm_reset st T t).params.total = st.params.total) ∧
    (tqdm_update_n st delta t2 w).1.params.total = st.params.total ∧
    (tqdm_update_to st v t2 w).1.params.total = st.params.total := by
  refine ⟨rfl, rfl, rfl, rfl, rfl, ?_, ?_, update_n_total_eq st delta t2 w,
    update_to_total_eq st v t2 w⟩
  · intro h
    show (if 0 < T then { st.params with total := T } else st.params).total = T
    rw [if_pos h]
  · intro h
    show (if 0 < T then { st.params with total := T } else st.params).total =
      st.params.total
    rw [if_neg (by omega)]

/-- C6 witness: `reset(5)` on `testState` restores `n = 0` and sets
`total = 5`; `reset(0)` keeps the old `total = 10`. -/
theorem tqdm_reset_spec_witness :
    (tqdm_reset testState 5 7).n = 0 ∧
    (tqdm_reset testState 5 7).paused = false ∧
    (tqdm_reset testState 5 7).params.total = 5 ∧
    (tqdm_reset testState 0 7).params.total = 10 := by
  have h5 := tqdm_reset_spec testState 5 1 1 7 7 80
  have h0 := tqdm_reset_spec testState 0 1 1 7 7 80
  exact ⟨h5.1.trans (by decide), h5.2.1,
    h5.2.2.2.2.2.1 (by decide),
    (h0.2.2.2.2.2.2.1 rfl).trans (by decide)⟩

/-! ### C7: remaining-time estimate -/

/-- C7.  The meter's remaining-time estimate is the quotient
`(total − n) / rate` exactly when `total > 0 ∧ n > 0 ∧ rate > 0 ∧
n < total`; in every other case no division is performed and the field is
rendered as the explicit unknown marker `"?"`. -/
theorem tqdm_meter_remaining_spec (n total : Nat) (rate : ℚ) :
    (0 < total ∧ 0 < n ∧ 0 < rate ∧ n < total →
      tqdm_meter_remaining n total rate = some (((total : ℚ) - (n : ℚ)) / rate) ∧
      tqdm_meter_remaining_str n total rate =
        tqdm_format_interval (((total : ℚ) - (n : ℚ)) / rate)) ∧
    (¬(0 < total ∧ 0 < n ∧ 0 < rate ∧ n < total) →
      tqdm_meter_remaining n total rate = none ∧
      tqdm_meter_remaining_str n total rate = "?") := by
  constructor
  · intro h
    have e : tqdm_meter_remaining n total rate =
        some (((total : ℚ) - (n : ℚ)) / rate) := by
      unfold tqdm_meter_remaining
      rw [if_pos h]
    refine ⟨e, ?_⟩
    unfold tqdm_meter_remaining_str
    rw [e]
  · intro h
    have e : tqdm_meter_remaining n total rate = none := by
      unfold tqdm_meter_remaining
      rw [if_neg h]
    refine ⟨e, ?_⟩
    unfold tqdm_meter_remaining_str
    rw [e]

/-- C7 witness: at `n = 5`, `total = 10`, `rate = 2` the estimate is 5/2
(rendered as clock text), and at `n = 0` (or zero rate/total) the field is
`"?"`. -/
theorem tqdm_meter_remaining_spec_witness :
    tqdm_meter_remaining 5 10 2 = some (5 / 2) ∧
    tqdm_meter_remaining_str 5 10 2 = "00:02" ∧
    tqdm_meter_remaining 0 10 2 = none ∧
    tqdm_meter_remaining_str 0 10 2 = "?" := by
  have h1 := (tqdm_meter_remaining_spec 5 10 2).1 (by norm_num)
  have h0 := (tqdm_meter_remaining_spec 0 10 2).2 (by norm_num)
  refine ⟨h1.1.trans (by norm_num), h1.2.trans ?_, h0.1, h0.2⟩
  have h52 : (((10 : Nat) : ℚ) - ((5 : Nat) : ℚ)) / 2 = 5 / 2 := by norm_num
  rw [h52]
  with_unfolding_all rfl

/-! ### C8: bar rendering at completion -/

/-- C8 counterexample: at width 1 with `n = total = 2^61` the `size_t`
product `n * 8 * bar_width` equals `2^64` and wraps to 0 (tqdm.c line
424), so the glyph bar renders completely empty instead of fully
filled. -/
theorem tqdm_glyph_bar_overflow_cex :
    tqdm_glyph_bar 1 (2 ^ 61) (2 ^ 61) ≠ List.replicate 1 8 := by decide

/-- C8 amended: for width `W ≥ 1` and `n = total > 0`, the ASCII bar is
`W` fill characters with no spaces and the glyph bar is `W` full blocks
with no empty cells, provided the fixed-point product `total·8·W` stays
below `2^64` (the `size_t` wrap of the counterexample) and — for the
ASCII mode's double-precision product to be exact — `W·total < 2^53`; and
in glyph mode with `total = 0` the bar is `W` empty cells
(unconditionally). -/
theorem tqdm_bar_full_at_total
    (W n total : Nat) (hW : 1 ≤ W)
    (hA : W * total < 2 ^ 53) (hG : total * 8 * W < W64) :
    (0 < total → tqdm_ascii_bar W total total = List.replicate W '#') ∧
    (0 < total → tqdm_glyph_bar W total total = List.replicate W 8) ∧
    tqdm_glyph_bar W n 0 = List.replicate W 0 := by
  refine ⟨?_, ?_, ?_⟩
  · intro hT
    unfold tqdm_ascii_bar
    dsimp only
    rw [if_pos hT, Nat.mul_div_cancel _ hT, min_self]
    simp
  · intro hT
    unfold tqdm_glyph_bar
    rw [if_pos ⟨hT, hT⟩]
    dsimp only
    have h8 : total * 8 % W64 = total * 8 := by
      apply Nat.mod_eq_of_lt
      calc total * 8 = total * 8 * 1 := by ring
        _ ≤ total * 8 * W := by exact Nat.mul_le_mul_left _ hW
        _ < W64 := hG
    have hpf : total * 8 % W64 * W % W64 / total = 8 * W := by
      rw [h8, Nat.mod_eq_of_lt hG]
      rw [show total * 8 * W = 8 * W * total by ring]
      exact Nat.mul_div_cancel _ hT
    rw [hpf]
    have hdiv : 8 * W / 8 = W := by omega
    have hmod : 8 * W % 8 = 0 := by omega
    rw [hdiv, hmod]
    rw [if_neg (lt_irrefl W)]
    dsimp only
    rw [if_neg (by simp)]
    rw [min_self]
    simp
  · unfold tqdm_glyph_bar
    rw [if_neg (by simp)]

/-- C8 witness: at width 4 and `total = 10` the completed bars are fully
filled, and the unknown-total glyph bar is fully empty. -/
theorem tqdm_bar_full_at_total_witness :
    tqdm_ascii_bar 4 10 10 = List.replicate 4 '#' ∧
    tqdm_glyph_bar 4 10 10 = List.replicate 4 8 ∧
    tqdm_glyph_bar 4 10 0 = List.replicate 4 0 := by
  have h := tqdm_bar_full_at_total 4 10 10 (by decide) (by decide) (by decide)
  exact ⟨h.1 (by decide), h.2.1 (by decide), h.2.2⟩

/-! ### C9: the unit-scaling formatter -/

theorem sizeof_go_spec (d : ℚ) :
    ∀ fuel num idx, idx + fuel = 8 →
      idx ≤ (tqdm_sizeof_go d num idx fuel).2 ∧
      (tqdm_sizeof_go d num idx fuel).1 =
        num / d ^ ((tqdm_sizeof_go d num idx fuel).2 - idx) ∧
      ((tqdm_sizeof_go d num idx fuel).1 < d ∨
        (tqdm_sizeof_go d num idx fuel).2 = 8) := by
  intro fuel
  induction fuel with
  | zero =>
    intro num idx h
    unfold tqdm_sizeof_go
    exact ⟨le_refl idx, by simp, Or.inr (by omega)⟩
  | succ f ih =>
    intro num idx h
    unfold tqdm_sizeof_go
    rw [if_pos (by omega : idx < 8)]
    by_cases hc : d ≤ num
    · rw [if_pos hc]
      obtain ⟨h1, h2, h3⟩ := ih (num / d) (idx + 1) (by omega)
      refine ⟨by omega, ?_, h3⟩
      rw [h2]
      have hk : (tqdm_sizeof_go d (num / d) (idx + 1) f).2 - idx =
          (tqdm_sizeof_go d (num / d) (idx + 1) f).2 - (idx + 1) + 1 := by
        omega
      rw [hk, pow_succ', div_div]
    · rw [if_neg hc]
      exact ⟨le_refl idx, by simp, Or.inl (lt_of_not_le hc)⟩

/-- C9 counterexample: the prefix text does not depend on the divisor —
`tqdm_format_sizeof` renders 1024 at binary divisor 1024 and 1000 at
decimal divisor 1000 as the identical `"1k"` (the decimal-style `k` from
the single table `tqdm_sizeof_pfx`; no binary `Ki`-style prefix exists in
the code). -/
theorem tqdm_format_sizeof_pfx_constant_cex :
    tqdm_format_sizeof 1024 "" 1024 = "1k" ∧
    tqdm_format_sizeof 1000 "" 1000 = "1k" := by
  constructor <;> with_unfolding_all rfl

/-- C9 amended: the scaling formatter repeatedly divides the number by the
configured divisor until the magnitude drops below the divisor or the
prefix table (shared between both divisors: none, k, M, …, Y) is
exhausted at index 8; in particular `scale(1536, divisor=1024)` yields
text containing `"1.5"` and `scale(1500, divisor=1000)` yields text
containing `"1.5"`. -/
theorem tqdm_format_sizeof_spec (num divisor : ℚ) :
    (tqdm_sizeof_scale num divisor 0).1 =
      num / divisor ^ (tqdm_sizeof_scale num divisor 0).2 ∧
    ((tqdm_sizeof_scale num divisor 0).1 < divisor ∨
      (tqdm_sizeof_scale num divisor 0).2 = 8) ∧
    textContains "1.5" (tqdm_format_sizeof 1536 "" 1024) ∧
    textContains "1.5" (tqdm_format_sizeof 1500 "" 1000) := by
  obtain ⟨h1, h2, h3⟩ := sizeof_go_spec divisor 8 num 0 rfl
  refine ⟨by simpa using h2, h3, ?_, ?_⟩
  · exact ⟨"", "0k", by with_unfolding_all rfl⟩
  · exact ⟨"", "0k", by with_unfolding_all rfl⟩

/-- C9 witness: at 1536 with divisor 1024 the loop stops after one
division (at 3/2 < 1024) and the text contains `"1.5"`. -/
theorem tqdm_format_sizeof_spec_witness :
    (tqdm_sizeof_scale 1536 1024 0).1 =
      1536 / 1024 ^ (tqdm_sizeof_scale 1536 1024 0).2 ∧
    ((tqdm_sizeof_scale 1536 1024 0).1 < 1024 ∨
      (tqdm_sizeof_scale 1536 1024 0).2 = 8) ∧
    textContains "1.5" (tqdm_format_sizeof 1536 "" 1024) := by
  have h := tqdm_format_sizeof_spec 1536 1024
  exact ⟨h.1, h.2.1, h.2.2.1⟩

/-! ### C10: pulling from an exhausted instance -/

/-- C10.  When has-more fails — the instance is closed, or the wrapped
array range is exhausted, or in bounded non-adapter mode `n` has reached
the configured total — `tqdm_has_next` is false and `tqdm_next` returns
the absent value and leaves the entire instance state unchanged. -/
theorem tqdm_next_exhausted_noop (st : Tqdm) (t : ℚ) (w : Nat)
    (h : st.closed = true ∨
      (st.iterator_mode = false ∧ ∃ e, st.endp = some e ∧ e ≤ st.current) ∨
      (st.iterator_mode = false ∧ st.endp = none ∧ 0 < st.params.total ∧
        st.params.total ≤ st.n)) :
    tqdm_has_next st = false ∧ tqdm_next st t w = (none, st) := by
  have hh : tqdm_has_next st = false := by
    unfold tqdm_has_next
    by_cases hc : st.closed = true
    · rw [if_pos hc]
    · rw [if_neg hc]
      rcases h with h | ⟨hit, e, he, hle⟩ | ⟨hit, hend, hpos, hge⟩
      · exact absurd h hc
      · rw [if_neg (by rw [hit]; simp), he]
        simp
        omega
      · rw [if_neg (by rw [hit]; simp), hend]
        simp only
        rw [if_pos hpos]
        simp
        omega
  refine ⟨hh, ?_⟩
  unfold tqdm_next
  rw [if_pos hh]

/-- C10 witness: the closed instance has no next element and `tqdm_next`
is a state-preserving `none`. -/
theorem tqdm_next_exhausted_noop_witness :
    tqdm_has_next closedState = false ∧
    tqdm_next closedState 1 80 = (none, closedState) :=
  tqdm_next_exhausted_noop closedState 1 80 (Or.inl rfl)

end TqdmC
